import Mathlib

/-!
Verification development for the swap-path arbitrage repository.

This file gives a shallow embedding, in Lean 4, of the parts of the Rust
source that the specification's claims are about:

* `src/src/token.rs`                    -- `Token`
* `src/src/pools/pool.rs`, `mock_pool.rs`, `pool_id.rs` -- pools
* `src/src/logic/graph/swap_path.rs`    -- `SwapPath` and its hash
* `src/src/graph/token_graph.rs`        -- `TokenGraph`, `add_pool`,
                                           the inversion step of `build_swap_paths`
* `src/src/logic/pathfinder.rs`         -- `Pathfinder::precompute_arbitrage_paths`
* `src/src/logic/profit_calculator.rs`  -- `ProfitCalculator`
* `src/src/logic/types.rs`              -- results, opportunities, snapshots
* `src/src/logic/arbitrage_engine.rs`   -- `ArbitrageEngine::initialize`,
                                           `process_market_snapshot`
* `src/src/data_sync/aggregator.rs`     -- `DataAggregator::validate_snapshot`
* `src/examples/live_arbitrage_monitor.rs` -- `ArbitrageOpportunityTracker`

Modelling conventions:

* 20-byte EVM addresses are natural numbers (`Address := Nat`).
* `U256` values are natural numbers; the arithmetic operators that can
  overflow in the source (ruint release builds wrap) are modelled with an
  explicit reduction modulo `2 ^ 256`.
* The SHA-256 digest of a swap path is modelled by the exact byte stream
  that the source feeds into the hasher (the list of token addresses
  followed by the list of pool addresses).  SHA-256 is a function of that
  stream, so equal streams give equal digests; every hash-equality fact
  proved here transfers to the real digest.
* Rust `HashMap`/`HashSet` values are association lists / lists without
  duplicates, in insertion order.
* `f64` profit values, produced in the source by parsing the decimal
  rendering of a `U256`, are modelled by the exact natural number; the
  claims settled here do not depend on the rounding of that conversion.
-/

/-- 20-byte EVM address, modelled as a natural number. -/
abbrev Address := Nat

/-- The wrapped native token address (`WMNT` in `src/src/utils/constants.rs`). -/
def WMNT : Address := 0x78c1b0c915c4faa5fffa6cabf0219da63d7f4cb8

/-- The native (zero) address (`NATIVE` in `src/src/utils/constants.rs`). -/
def NATIVE : Address := 0

/-- `Token` from `src/src/token.rs`.  Rust equality and hashing of tokens use
only the address. -/
structure Token where
  address : Address
  decimals : Nat := 18
  symbol : Option String := none
  name : Option String := none
  deriving DecidableEq, Repr

/-- `Token::get_address`. -/
def Token.get_address (t : Token) : Address := t.address

/-- `Token::is_wrapped`: the address equals the configured WMNT address. -/
def Token.is_wrapped (t : Token) : Bool := t.address == WMNT

/-- `Token::is_native`: the address is the zero address. -/
def Token.is_native (t : Token) : Bool := t.address == NATIVE

/-- `PoolId` from `src/src/logic/pools/pool_id.rs`: a 20-byte address or a
32-byte hash. -/
inductive PoolId where
  | address (a : Address)
  | hash (h : Nat)
  deriving DecidableEq, Repr

/-- A pool as the graph and profit code see it through the `Pool` trait of
`src/src/pools/pool.rs`: an address, the ordered token pair and a fee.
Like the concrete pools of the repository (`MockPool`, the constant-product
pools), it advertises both orderings of its token pair as swap directions. -/
structure Pool where
  address : Address
  token0 : Address
  token1 : Address
  fee : Nat := 0
  deriving DecidableEq, Repr

/-- `Pool::get_pool_id` (the address-keyed variant used by the pools of the
repository). -/
def Pool.get_pool_id (p : Pool) : PoolId := PoolId.address p.address

/-- `Pool::get_address`. -/
def Pool.get_address (p : Pool) : Address := p.address

/-- `Pool::get_fee`. -/
def Pool.get_fee (p : Pool) : Nat := p.fee

/-- `Pool::get_tokens`. -/
def Pool.get_tokens (p : Pool) : List Address := [p.token0, p.token1]

/-- `Pool::get_swap_directions`: both orderings of the token pair. -/
def Pool.get_swap_directions (p : Pool) : List (Address × Address) :=
  [(p.token0, p.token1), (p.token1, p.token0)]

/-- `SwapPathHash` from `src/src/graph/swap_path_hash.rs`.  The 32-byte
SHA-256 digest is modelled by the exact address stream hashed (token
addresses followed by pool addresses); SHA-256 is a function of this
stream. -/
abbrev SwapPathHash := List Address

/-- `generate_swap_path_hash` from `src/src/logic/graph/swap_path.rs`:
feed every token address, then every pool address, into the hasher. -/
def generate_swap_path_hash (tokens : List Token) (pools : List Pool) : SwapPathHash :=
  tokens.map Token.get_address ++ pools.map Pool.get_address

/-- `SwapPath` from `src/src/logic/graph/swap_path.rs`.  `pools_map` is the
`HashSet<PoolId>` used for O(1) `contains_pool`, modelled as a list without
duplicates in insertion order. -/
structure SwapPath where
  swap_path_hash : SwapPathHash
  pools_map : List PoolId
  tokens : List Token
  pools : List Pool
  deriving DecidableEq, Repr

/-- Insert into the modelled `HashSet<PoolId>`. -/
def insertPoolId (id : PoolId) (s : List PoolId) : List PoolId :=
  if id ∈ s then s else s ++ [id]

/-- `SwapPath::new`: build a path from token and pool lists, collecting the
pool-id set and computing the content hash. -/
def SwapPath.new (tokens : List Token) (pools : List Pool) : SwapPath :=
  { swap_path_hash := generate_swap_path_hash tokens pools
    pools_map := pools.foldl (fun s p => insertPoolId p.get_pool_id s) []
    tokens := tokens
    pools := pools }

/-- `SwapPath::new_first`: the 1-hop prefix. -/
def SwapPath.new_first (token_from token_to : Token) (pool : Pool) : SwapPath :=
  { swap_path_hash := generate_swap_path_hash [token_from, token_to] [pool]
    pools_map := [pool.get_pool_id]
    tokens := [token_from, token_to]
    pools := [pool] }

/-- `SwapPath::is_empty`. -/
def SwapPath.is_empty (p : SwapPath) : Bool := p.tokens.isEmpty && p.pools.isEmpty

/-- `SwapPath::invert`: reverse tokens and pools, keep the pool-id set,
recompute the hash from the reversed sequences. -/
def SwapPath.invert (p : SwapPath) : SwapPath :=
  { swap_path_hash := generate_swap_path_hash p.tokens.reverse p.pools.reverse
    pools_map := p.pools_map
    tokens := p.tokens.reverse
    pools := p.pools.reverse }

/-- `SwapPath::push_swap_hop`: append a hop; fails on the empty path.  The
Rust method mutates in place and returns `Result`; the model returns the new
path. -/
def SwapPath.push_swap_hop (p : SwapPath) (token_to : Token) (pool : Pool) :
    Except String SwapPath :=
  if p.is_empty then Except.error "Swap path is empty"
  else Except.ok
    { swap_path_hash := generate_swap_path_hash (p.tokens ++ [token_to]) (p.pools ++ [pool])
      pools_map := insertPoolId pool.get_pool_id p.pools_map
      tokens := p.tokens ++ [token_to]
      pools := p.pools ++ [pool] }

/-- `SwapPath::contains_pool`: membership in the pool-id set. -/
def SwapPath.contains_pool (p : SwapPath) (pool : Pool) : Bool :=
  p.pools_map.contains pool.get_pool_id

/-- `SwapPath::len`: the hop count (number of pools). -/
def SwapPath.len (p : SwapPath) : Nat := p.pools.length

/-- Rust `PartialEq` for `SwapPath`: token sequences equal (tokens compare by
address) and pool sequences equal (pool wrappers compare by pool id). -/
def swapPathEqb (p q : SwapPath) : Bool :=
  (p.tokens.map Token.get_address == q.tokens.map Token.get_address) &&
  (p.pools.map Pool.get_pool_id == q.pools.map Pool.get_pool_id)

theorem invert_tokens_map (p : SwapPath) :
    p.invert.tokens.map Token.get_address = (p.tokens.map Token.get_address).reverse := by
  simp [SwapPath.invert]

theorem invert_pools_map_ids (p : SwapPath) :
    p.invert.pools.map Pool.get_pool_id = (p.pools.map Pool.get_pool_id).reverse := by
  simp [SwapPath.invert]

theorem swapPathEqb_invert_invert_self (q : SwapPath) :
    swapPathEqb q.invert.invert q = true := by
  simp [swapPathEqb, invert_tokens_map, invert_pools_map_ids]

-- Concrete values used by witnesses throughout the file.

/-- A concrete WMNT token value. -/
def tokW : Token := { address := WMNT }

/-- A concrete non-wrapped token. -/
def tokA : Token := { address := WMNT + 1 }

/-- A second concrete non-wrapped token. -/
def tokB : Token := { address := WMNT + 2 }

/-- A pool between WMNT and `tokA`. -/
def poolWA : Pool := { address := 10, token0 := WMNT, token1 := WMNT + 1 }

/-- A pool between `tokA` and `tokB`. -/
def poolAB : Pool := { address := 12, token0 := WMNT + 1, token1 := WMNT + 2 }

/-- A pool between `tokB` and WMNT. -/
def poolBW : Pool := { address := 13, token0 := WMNT + 2, token1 := WMNT }

/-- A concrete 1-hop path WMNT -> tokA. -/
def exPath1 : SwapPath := SwapPath.new_first tokW tokA poolWA

/-- C7: the content hash of `p.invert().invert()` equals the content hash of
`p`, for every `SwapPath` whose stored hash is the hash of its sequences (as
guaranteed by every `SwapPath` constructor: `new`, `new_first`,
`push_swap_hop`, `invert`). -/
theorem c7_invert_invert_hash (p : SwapPath)
    (h : p.swap_path_hash = generate_swap_path_hash p.tokens p.pools) :
    p.invert.invert.swap_path_hash = p.swap_path_hash := by
  simp [SwapPath.invert, h]

/-- Witness for C7 at the concrete 1-hop path. -/
theorem c7_invert_invert_hash_witness :
    exPath1.swap_path_hash = generate_swap_path_hash exPath1.tokens exPath1.pools ∧
    exPath1.invert.invert.swap_path_hash = exPath1.swap_path_hash :=
  ⟨by decide, c7_invert_invert_hash exPath1 (by decide)⟩

/-- `TokenNode`: a graph node wrapping a token. -/
structure TokenNode where
  token : Token
  deriving DecidableEq, Repr

/-- `PoolEdge`: an entry of an edge's pool map, a pool with its active flag. -/
structure PoolEdge where
  is_active : Bool
  inner : Pool
  deriving DecidableEq, Repr

/-- `PoolEdge::new`: a freshly added pool is active. -/
def PoolEdge.new (pool : Pool) : PoolEdge := { is_active := true, inner := pool }

/-- One undirected petgraph edge: its two endpoint node indices and its
`HashMap<PoolId, PoolEdge>` weight. -/
structure GraphEdge where
  nodeA : Nat
  nodeB : Nat
  pools : List (PoolId × PoolEdge)
  deriving DecidableEq, Repr

/-- `TokenGraph`: petgraph node and edge lists (indices are positions) plus
the pool / token / index maps. -/
structure TokenGraph where
  nodes : List TokenNode := []
  edges : List GraphEdge := []
  pools : List (PoolId × Pool) := []
  tokens : List (Address × Token) := []
  token_index : List (Address × Nat) := []
  pool_index : List (PoolId × Nat) := []
  deriving DecidableEq, Repr

/-- `TokenGraph::new`. -/
def TokenGraph.new : TokenGraph := {}

/-- `HashMap::get` on the association-list model. -/
def lookupA {α β : Type} [BEq α] (k : α) : List (α × β) → Option β
  | [] => none
  | (k', v) :: rest => bif k == k' then some v else lookupA k rest

/-- `HashMap::contains_key` on the association-list model. -/
def containsKeyA {α β : Type} [BEq α] (k : α) : List (α × β) → Bool
  | [] => false
  | (k', _) :: rest => k == k' || containsKeyA k rest

/-- `HashMap::insert`: replace the value under an existing key, else append. -/
def hmInsert {α β : Type} [BEq α] (k : α) (v : β) (m : List (α × β)) : List (α × β) :=
  bif containsKeyA k m then
    m.map (fun kv => bif k == kv.1 then (k, v) else kv)
  else m ++ [(k, v)]

/-- The token stored at a node index (`node_weight`). -/
def TokenGraph.nodeToken (g : TokenGraph) (i : Nat) : Option Token :=
  (g.nodes[i]?).map TokenNode.token

/-- Index of the first list element satisfying a predicate. -/
def listFindIdx {α : Type} (p : α → Bool) : List α → Option Nat
  | [] => none
  | x :: rest => bif p x then some 0 else (listFindIdx p rest).map (fun i => i + 1)

/-- The endpoint test of petgraph `find_edge` on an undirected graph. -/
def edgeBetween (u v : Nat) (e : GraphEdge) : Bool :=
  (e.nodeA == u && e.nodeB == v) || (e.nodeA == v && e.nodeB == u)

/-- petgraph `find_edge` on an undirected graph: the first edge whose
endpoint pair is `{u, v}`. -/
def TokenGraph.findEdgeIdx (g : TokenGraph) (u v : Nat) : Option Nat :=
  listFindIdx (edgeBetween u v) g.edges

/-- `TokenGraph::add_or_get_token_idx_by_token`: idempotent by address;
returns the stable node index. -/
def TokenGraph.add_or_get_token_idx_by_token (g : TokenGraph) (tok : Token) :
    TokenGraph × Nat :=
  match lookupA tok.get_address g.token_index with
  | some i => (g, i)
  | none =>
    let idx := g.nodes.length
    ({ g with
        nodes := g.nodes ++ [{ token := tok }]
        token_index := g.token_index ++ [(tok.get_address, idx)]
        tokens := g.tokens ++ [(tok.get_address, tok)] }, idx)

/-- One iteration of the swap-direction loop of `TokenGraph::add_pool`:
look up both endpoint node indices (error if a token is absent), then ensure
the edge and insert the pool into the edge's map unless already present. -/
def TokenGraph.addPoolStep (g : TokenGraph) (pool : Pool) (f t : Address) :
    Except String TokenGraph :=
  match lookupA f g.token_index with
  | none => Except.error "Token not found in graph"
  | some nodeFrom =>
    match lookupA t g.token_index with
    | none => Except.error "Token not found in graph"
    | some nodeTo =>
      match g.findEdgeIdx nodeFrom nodeTo with
      | some ei =>
        match g.edges[ei]? with
        | none => Except.ok g
        | some e =>
          bif containsKeyA pool.get_pool_id e.pools then Except.ok g
          else
            Except.ok { g with
              edges := g.edges.set ei
                { e with pools := hmInsert pool.get_pool_id (PoolEdge.new pool) e.pools }
              pool_index := hmInsert pool.get_pool_id ei g.pool_index }
      | none =>
        Except.ok { g with
          edges := g.edges ++
            [{ nodeA := nodeFrom, nodeB := nodeTo
               pools := [(pool.get_pool_id, PoolEdge.new pool)] }]
          pool_index := hmInsert pool.get_pool_id g.edges.length g.pool_index }

/-- The swap-direction loop of `TokenGraph::add_pool`; after the loop the
pool is registered in the graph's pool map. -/
def TokenGraph.addPoolLoop (g : TokenGraph) (pool : Pool) :
    List (Address × Address) → Except String TokenGraph
  | [] => Except.ok { g with pools := hmInsert pool.get_pool_id pool g.pools }
  | (f, t) :: rest =>
    match g.addPoolStep pool f t with
    | Except.error e => Except.error e
    | Except.ok g1 => g1.addPoolLoop pool rest

/-- `TokenGraph::add_pool`. -/
def TokenGraph.add_pool (g : TokenGraph) (pool : Pool) : Except String TokenGraph :=
  g.addPoolLoop pool pool.get_swap_directions

/-- The edge pool maps seen from node `n`, as petgraph `edges(n)` returns
them: for every incident edge, the opposite endpoint and the pool map. -/
def TokenGraph.edgesOf (g : TokenGraph) (n : Nat) : List (Nat × List (PoolId × PoolEdge)) :=
  g.edges.filterMap (fun e =>
    if e.nodeA = n then some (e.nodeB, e.pools)
    else if e.nodeB = n then some (e.nodeA, e.pools)
    else none)

/-- Does some edge between node indices `u` and `v` carry the pool id? -/
def edgeHasPool (g : TokenGraph) (u v : Nat) (pid : PoolId) : Bool :=
  g.edges.any (fun e => edgeBetween u v e && containsKeyA pid e.pools)

/-- Rust `Result::is_ok` for the modelled `Except`. -/
def exceptIsOk {ε α : Type} : Except ε α → Bool
  | Except.ok _ => true
  | Except.error _ => false

-- Auxiliary list lemmas used by the graph proofs.

theorem listFindIdx_spec {α : Type} (p : α → Bool) :
    ∀ (l : List α) (i : Nat), listFindIdx p l = some i →
      ∃ x, l[i]? = some x ∧ p x = true
  | [], i, h => by simp [listFindIdx] at h
  | x :: rest, i, h => by
    cases hp : p x with
    | true =>
      simp [listFindIdx, hp] at h
      exact ⟨x, by simp [← h], hp⟩
    | false =>
      simp [listFindIdx, hp, Option.map_eq_some'] at h
      obtain ⟨j, hj, hij⟩ := h
      obtain ⟨y, hy, hpy⟩ := listFindIdx_spec p rest j hj
      exact ⟨y, by simp [← hij, hy], hpy⟩

theorem getElem?_some_lt {α : Type} :
    ∀ (l : List α) (i : Nat) (x : α), l[i]? = some x → i < l.length
  | [], i, x, h => by simp at h
  | a :: rest, 0, x, h => by simp
  | a :: rest, i + 1, x, h => by
    have := getElem?_some_lt rest i x (by simpa using h)
    simpa using Nat.succ_lt_succ this

theorem getElem?_set_self {α : Type} :
    ∀ (l : List α) (i : Nat) (x : α), i < l.length → (l.set i x)[i]? = some x
  | [], i, x, h => by simp at h
  | a :: rest, 0, x, h => by simp [List.set]
  | a :: rest, i + 1, x, h => by
    simp only [List.set_cons_succ, List.getElem?_cons_succ]
    exact getElem?_set_self rest i x (by simpa using h)

theorem getElem?_set_ne {α : Type} :
    ∀ (l : List α) (i j : Nat) (x : α), i ≠ j → (l.set i x)[j]? = l[j]?
  | [], i, j, x, _ => by simp [List.set]
  | a :: rest, 0, 0, x, h => absurd rfl h
  | a :: rest, 0, j + 1, x, _ => by simp [List.set]
  | a :: rest, i + 1, 0, x, _ => by simp [List.set]
  | a :: rest, i + 1, j + 1, x, h => by
    simp only [List.set_cons_succ, List.getElem?_cons_succ]
    exact getElem?_set_ne rest i j x (fun hij => h (by rw [hij]))

-- Lookup lemmas for the modelled `HashMap::insert`.

theorem containsKeyA_eq_isSome {α β : Type} [BEq α] (k : α) :
    ∀ m : List (α × β), containsKeyA k m = (lookupA k m).isSome
  | [] => by simp [containsKeyA, lookupA]
  | (k', v) :: rest => by
    cases hk : (k == k') with
    | true => simp [containsKeyA, lookupA, hk]
    | false => simp [containsKeyA, lookupA, hk, containsKeyA_eq_isSome k rest]

theorem lookupA_map_replace {α β : Type} [BEq α] [LawfulBEq α] (k : α) (v : β) :
    ∀ m : List (α × β), containsKeyA k m = true →
      lookupA k (m.map (fun kv => bif k == kv.1 then (k, v) else kv)) = some v
  | [], h => by simp [containsKeyA] at h
  | (k', w) :: rest, h => by
    cases hk : (k == k') with
    | true => simp [lookupA, hk]
    | false =>
      have hrest : containsKeyA k rest = true := by
        simpa [containsKeyA, hk] using h
      simpa [lookupA, hk] using lookupA_map_replace k v rest hrest

theorem lookupA_append_self {α β : Type} [BEq α] [LawfulBEq α] (k : α) (v : β) :
    ∀ m : List (α × β), containsKeyA k m = false →
      lookupA k (m ++ [(k, v)]) = some v
  | [], _ => by simp [lookupA]
  | (k', w) :: rest, h => by
    have hk : (k == k') = false := by
      cases hkk : (k == k') with
      | false => rfl
      | true => simp [containsKeyA, hkk] at h
    have hrest : containsKeyA k rest = false := by
      simpa [containsKeyA, hk] using h
    simpa [lookupA, hk] using lookupA_append_self k v rest hrest

theorem lookupA_hmInsert_self {α β : Type} [BEq α] [LawfulBEq α] (k : α) (v : β)
    (m : List (α × β)) : lookupA k (hmInsert k v m) = some v := by
  cases h : containsKeyA k m with
  | true => simpa [hmInsert, h] using lookupA_map_replace k v m h
  | false => simpa [hmInsert, h] using lookupA_append_self k v m h

theorem lookupA_isSome_map_replace {α β : Type} [BEq α] [LawfulBEq α] (a k : α) (v : β) :
    ∀ m : List (α × β), (lookupA a m).isSome = true →
      (lookupA a (m.map (fun kv => bif k == kv.1 then (k, v) else kv))).isSome = true
  | [], h => by simp [lookupA] at h
  | (k', w) :: rest, h => by
    cases hk : (k == k') with
    | true =>
      cases hak : (a == k) with
      | true => simp [lookupA, hk, hak]
      | false =>
        have ha : (a == k') = false := by
          cases hx : (a == k') with
          | false => rfl
          | true =>
            rw [eq_of_beq hx, ← eq_of_beq hk] at hak
            simp at hak
        have hrest : (lookupA a rest).isSome = true := by
          simpa [lookupA, ha] using h
        simpa [lookupA, hk, hak] using lookupA_isSome_map_replace a k v rest hrest
    | false =>
      cases ha : (a == k') with
      | true => simp [lookupA, hk, ha]
      | false =>
        have hrest : (lookupA a rest).isSome = true := by
          simpa [lookupA, ha] using h
        simpa [lookupA, hk, ha] using lookupA_isSome_map_replace a k v rest hrest

theorem lookupA_isSome_append {α β : Type} [BEq α] (a : α) (z : α × β) :
    ∀ m : List (α × β), (lookupA a m).isSome = true →
      (lookupA a (m ++ [z])).isSome = true
  | [], h => by simp [lookupA] at h
  | (k', w) :: rest, h => by
    cases ha : (a == k') with
    | true => simp [lookupA, ha]
    | false =>
      simpa [lookupA, ha] using
        lookupA_isSome_append a z rest (by simpa [lookupA, ha] using h)

theorem lookupA_isSome_hmInsert {α β : Type} [BEq α] [LawfulBEq α] (a k : α) (v : β)
    (m : List (α × β)) (h : (lookupA a m).isSome = true) :
    (lookupA a (hmInsert k v m)).isSome = true := by
  cases hf : containsKeyA k m with
  | true => simpa [hmInsert, hf] using lookupA_isSome_map_replace a k v m h
  | false => simpa [hmInsert, hf] using lookupA_isSome_append a (k, v) m h

theorem containsKeyA_hmInsert {α β : Type} [BEq α] [LawfulBEq α] (a k : α) (v : β)
    (m : List (α × β)) (h : containsKeyA a m = true) :
    containsKeyA a (hmInsert k v m) = true := by
  rw [containsKeyA_eq_isSome] at h ⊢
  exact lookupA_isSome_hmInsert a k v m h

theorem mem_of_getElem?A {α : Type} :
    ∀ (l : List α) (i : Nat) (x : α), l[i]? = some x → x ∈ l
  | [], i, x, h => by simp at h
  | a :: rest, 0, x, h => by
    simp at h
    simp [h]
  | a :: rest, i + 1, x, h =>
    List.mem_cons_of_mem a (mem_of_getElem?A rest i x (by simpa using h))

theorem getElem?_of_memA {α : Type} :
    ∀ (l : List α) (x : α), x ∈ l → ∃ i : Nat, l[i]? = some x
  | [], x, h => absurd h (List.not_mem_nil x)
  | a :: rest, x, h => by
    rcases List.mem_cons.mp h with h1 | h2
    · exact ⟨0, by simp [h1]⟩
    · obtain ⟨i, hi⟩ := getElem?_of_memA rest x h2
      exact ⟨i + 1, by simpa using hi⟩

-- Properties of one swap-direction iteration of `TokenGraph::add_pool`.

theorem addPoolStep_ok_iff (g : TokenGraph) (pool : Pool) (f t : Address) :
    exceptIsOk (g.addPoolStep pool f t) = true ↔
      ((lookupA f g.token_index).isSome = true ∧
       (lookupA t g.token_index).isSome = true) := by
  unfold TokenGraph.addPoolStep
  cases hf : lookupA f g.token_index with
  | none => simp [exceptIsOk]
  | some nf =>
    cases ht : lookupA t g.token_index with
    | none => simp [exceptIsOk]
    | some nt =>
      cases hei : g.findEdgeIdx nf nt with
      | none => simp [exceptIsOk, hei]
      | some ei =>
        cases he : g.edges[ei]? with
        | none => simp [exceptIsOk, hei, he]
        | some e =>
          cases hc : containsKeyA pool.get_pool_id e.pools with
          | true => simp [exceptIsOk, hei, he, hc]
          | false => simp [exceptIsOk, hei, he, hc]

theorem addPoolStep_fields (g : TokenGraph) (pool : Pool) (f t : Address) (g1 : TokenGraph)
    (h : g.addPoolStep pool f t = Except.ok g1) :
    g1.token_index = g.token_index ∧ g1.nodes = g.nodes ∧ g1.tokens = g.tokens ∧
      g1.pools = g.pools := by
  unfold TokenGraph.addPoolStep at h
  cases hf : lookupA f g.token_index with
  | none => simp [hf] at h
  | some nf =>
    simp only [hf] at h
    cases ht : lookupA t g.token_index with
    | none => simp [ht] at h
    | some nt =>
      simp only [ht] at h
      cases hei : g.findEdgeIdx nf nt with
      | none =>
        simp only [hei] at h
        injection h with h2
        subst h2
        exact ⟨rfl, rfl, rfl, rfl⟩
      | some ei =>
        simp only [hei] at h
        cases he : g.edges[ei]? with
        | none =>
          simp only [he] at h
          injection h with h2
          subst h2
          exact ⟨rfl, rfl, rfl, rfl⟩
        | some e =>
          simp only [he] at h
          cases hc : containsKeyA pool.get_pool_id e.pools with
          | true =>
            simp only [hc, cond_true] at h
            injection h with h2
            subst h2
            exact ⟨rfl, rfl, rfl, rfl⟩
          | false =>
            simp only [hc, cond_false] at h
            injection h with h2
            subst h2
            exact ⟨rfl, rfl, rfl, rfl⟩

theorem addPoolStep_establishes (g : TokenGraph) (pool : Pool) (f t : Address) (nf nt : Nat)
    (hf : lookupA f g.token_index = some nf) (ht : lookupA t g.token_index = some nt) :
    ∃ g1, g.addPoolStep pool f t = Except.ok g1 ∧
      edgeHasPool g1 nf nt pool.get_pool_id = true := by
  unfold TokenGraph.addPoolStep
  simp only [hf, ht]
  cases hei : g.findEdgeIdx nf nt with
  | none =>
    simp only [hei]
    refine ⟨_, rfl, ?_⟩
    rw [edgeHasPool, List.any_eq_true]
    refine ⟨{ nodeA := nf, nodeB := nt
              pools := [(pool.get_pool_id, PoolEdge.new pool)] }, ?_, ?_⟩
    · exact List.mem_append_right _ (List.mem_singleton.mpr rfl)
    · simp [edgeBetween, containsKeyA]
  | some ei =>
    obtain ⟨e, he, hpe⟩ :=
      listFindIdx_spec (edgeBetween nf nt) g.edges ei
        (by simpa [TokenGraph.findEdgeIdx] using hei)
    simp only [hei, he]
    cases hc : containsKeyA pool.get_pool_id e.pools with
    | true =>
      simp only [hc, cond_true]
      refine ⟨g, rfl, ?_⟩
      rw [edgeHasPool, List.any_eq_true]
      exact ⟨e, mem_of_getElem?A g.edges ei e he, by simp [hpe, hc]⟩
    | false =>
      simp only [hc, cond_false]
      refine ⟨_, rfl, ?_⟩
      rw [edgeHasPool, List.any_eq_true]
      have hlt : ei < g.edges.length := getElem?_some_lt g.edges ei e he
      refine ⟨{ e with pools := hmInsert pool.get_pool_id (PoolEdge.new pool) e.pools },
        mem_of_getElem?A _ ei _ (getElem?_set_self g.edges ei _ hlt), ?_⟩
      rw [Bool.and_eq_true]
      constructor
      · simpa [edgeBetween] using hpe
      · rw [containsKeyA_eq_isSome]
        simp [lookupA_hmInsert_self]

theorem addPoolStep_preserves (g : TokenGraph) (pool : Pool) (f t : Address)
    (g1 : TokenGraph) (u v : Nat) (pid : PoolId)
    (hhas : edgeHasPool g u v pid = true)
    (h : g.addPoolStep pool f t = Except.ok g1) :
    edgeHasPool g1 u v pid = true := by
  unfold TokenGraph.addPoolStep at h
  cases hf : lookupA f g.token_index with
  | none => simp [hf] at h
  | some nf =>
    simp only [hf] at h
    cases ht : lookupA t g.token_index with
    | none => simp [ht] at h
    | some nt =>
      simp only [ht] at h
      cases hei : g.findEdgeIdx nf nt with
      | none =>
        simp only [hei] at h
        injection h with h2
        subst h2
        rw [edgeHasPool, List.any_eq_true] at hhas ⊢
        obtain ⟨e, hmem, hp⟩ := hhas
        exact ⟨e, List.mem_append_left _ hmem, hp⟩
      | some ei =>
        simp only [hei] at h
        cases he : g.edges[ei]? with
        | none =>
          simp only [he] at h
          injection h with h2
          subst h2
          exact hhas
        | some e =>
          simp only [he] at h
          cases hc : containsKeyA pool.get_pool_id e.pools with
          | true =>
            simp only [hc, cond_true] at h
            injection h with h2
            subst h2
            exact hhas
          | false =>
            simp only [hc, cond_false] at h
            injection h with h2
            subst h2
            rw [edgeHasPool, List.any_eq_true] at hhas ⊢
            obtain ⟨ew, hmem, hp⟩ := hhas
            obtain ⟨j, hj⟩ := getElem?_of_memA g.edges ew hmem
            by_cases hji : j = ei
            · subst hji
              rw [hj] at he
              injection he with he2
              subst he2
              have hlt : j < g.edges.length := getElem?_some_lt g.edges j _ hj
              refine ⟨{ ew with pools := hmInsert pool.get_pool_id (PoolEdge.new pool) ew.pools },
                mem_of_getElem?A _ j _ (getElem?_set_self g.edges j _ hlt), ?_⟩
              rw [Bool.and_eq_true] at hp ⊢
              refine ⟨by simpa [edgeBetween] using hp.1, ?_⟩
              exact containsKeyA_hmInsert pid pool.get_pool_id (PoolEdge.new pool) ew.pools hp.2
            · refine ⟨ew, ?_, hp⟩
              refine mem_of_getElem?A _ j _ ?_
              rw [getElem?_set_ne g.edges ei j _ (fun hx => hji hx.symm)]
              exact hj

/-- C4 (amended): `TokenGraph::add_pool` does not implicitly create missing
tokens.  It succeeds iff both tokens of the pool's swap directions are
already nodes of the graph, and fails with the token-not-found error
otherwise; it never modifies the graph's token set; on success it registers
the pool in the graph's pool map and inserts it into the edge between its
two token nodes (the same undirected edge serves both swap directions). -/
theorem c4_add_pool_requires_tokens (g : TokenGraph) (pool : Pool) :
    (exceptIsOk (g.add_pool pool) = true ↔
      ((lookupA pool.token0 g.token_index).isSome = true ∧
       (lookupA pool.token1 g.token_index).isSome = true)) ∧
    (∀ g1, g.add_pool pool = Except.ok g1 →
      g1.token_index = g.token_index ∧ g1.nodes = g.nodes ∧ g1.tokens = g.tokens ∧
      lookupA pool.get_pool_id g1.pools = some pool ∧
      (∀ nf nt, lookupA pool.token0 g.token_index = some nf →
        lookupA pool.token1 g.token_index = some nt →
        edgeHasPool g1 nf nt pool.get_pool_id = true)) := by
  have hloop : g.add_pool pool =
      match g.addPoolStep pool pool.token0 pool.token1 with
      | Except.error e => Except.error e
      | Except.ok gA =>
        match gA.addPoolStep pool pool.token1 pool.token0 with
        | Except.error e => Except.error e
        | Except.ok gB =>
          Except.ok { gB with pools := hmInsert pool.get_pool_id pool gB.pools } := rfl
  cases h1 : g.addPoolStep pool pool.token0 pool.token1 with
  | error e1 =>
    have hadd : g.add_pool pool = Except.error e1 := by rw [hloop, h1]
    have hiff := addPoolStep_ok_iff g pool pool.token0 pool.token1
    rw [h1] at hiff
    constructor
    · rw [hadd]
      exact hiff
    · intro g1 hres
      rw [hadd] at hres
      simp at hres
  | ok gA =>
    have hfieldsA := addPoolStep_fields g pool pool.token0 pool.token1 gA h1
    have hok1 : (lookupA pool.token0 g.token_index).isSome = true ∧
        (lookupA pool.token1 g.token_index).isSome = true := by
      have hiff := addPoolStep_ok_iff g pool pool.token0 pool.token1
      rw [h1] at hiff
      exact hiff.mp (by simp [exceptIsOk])
    have hadd : g.add_pool pool =
        match gA.addPoolStep pool pool.token1 pool.token0 with
        | Except.error e => Except.error e
        | Except.ok gB =>
          Except.ok { gB with pools := hmInsert pool.get_pool_id pool gB.pools } := by
      rw [hloop, h1]
    cases h2 : gA.addPoolStep pool pool.token1 pool.token0 with
    | error e2 =>
      exfalso
      have hiff2 := addPoolStep_ok_iff gA pool pool.token1 pool.token0
      rw [h2] at hiff2
      have hcon : exceptIsOk (Except.error e2 : Except String TokenGraph) = true := by
        apply hiff2.mpr
        rw [hfieldsA.1]
        exact ⟨hok1.2, hok1.1⟩
      simp [exceptIsOk] at hcon
    | ok gB =>
      have hfieldsB := addPoolStep_fields gA pool pool.token1 pool.token0 gB h2
      have hadd2 : g.add_pool pool =
          Except.ok { gB with pools := hmInsert pool.get_pool_id pool gB.pools } := by
        rw [hadd, h2]
      constructor
      · rw [hadd2]
        simp [exceptIsOk, hok1.1, hok1.2]
      · intro g1 hres
        rw [hadd2] at hres
        injection hres with hg1
        subst hg1
        refine ⟨?_, ?_, ?_, ?_, ?_⟩
        · show gB.token_index = g.token_index
          rw [hfieldsB.1, hfieldsA.1]
        · show gB.nodes = g.nodes
          rw [hfieldsB.2.1, hfieldsA.2.1]
        · show gB.tokens = g.tokens
          rw [hfieldsB.2.2.1, hfieldsA.2.2.1]
        · exact lookupA_hmInsert_self pool.get_pool_id pool gB.pools
        · intro nf nt hnf hnt
          obtain ⟨gA', hA', hhas⟩ :=
            addPoolStep_establishes g pool pool.token0 pool.token1 nf nt hnf hnt
          rw [h1] at hA'
          injection hA' with hAeq
          subst hAeq
          exact addPoolStep_preserves gA pool pool.token1 pool.token0 gB nf nt
            pool.get_pool_id hhas h2

/-- The graph with the WMNT and `tokA` nodes added (no pools yet). -/
def exGraphWA : TokenGraph :=
  ((TokenGraph.new.add_or_get_token_idx_by_token tokW).1.add_or_get_token_idx_by_token
    tokA).1

/-- The graph after adding `poolWA` to `exGraphWA`. -/
def exGraphWA1 : TokenGraph :=
  match exGraphWA.add_pool poolWA with
  | Except.ok g => g
  | Except.error _ => TokenGraph.new

/-- C4 counterexample: on the empty graph `add_pool` fails with the
token-not-found error instead of implicitly creating the missing tokens,
although the same tokens can be created (adding them first makes the same
call succeed). -/
theorem c4_counterexample :
    TokenGraph.new.add_pool poolWA = Except.error "Token not found in graph" ∧
    exceptIsOk (exGraphWA.add_pool poolWA) = true :=
  ⟨rfl, rfl⟩

/-- Witness for C4 on a concrete graph holding both tokens. -/
theorem c4_add_pool_requires_tokens_witness :
    exGraphWA.add_pool poolWA = Except.ok exGraphWA1 ∧
    lookupA poolWA.get_pool_id exGraphWA1.pools = some poolWA ∧
    edgeHasPool exGraphWA1 0 1 poolWA.get_pool_id = true := by
  have h : exGraphWA.add_pool poolWA = Except.ok exGraphWA1 := rfl
  have h2 := (c4_add_pool_requires_tokens exGraphWA poolWA).2 exGraphWA1 h
  exact ⟨h, h2.2.2.2.1, h2.2.2.2.2 0 1 rfl rfl⟩

/-! ## MarketSnapshot and snapshot validation
(`src/src/logic/types.rs`, `src/src/data_sync/aggregator.rs`) -/

/-- `MarketSnapshot` from `src/src/logic/types.rs`. -/
structure MarketSnapshot where
  pool_reserves : List (PoolId × (Nat × Nat)) := []
  timestamp : Nat := 0
  block_number : Nat := 0
  enabled_pools : List PoolId := []
  total_pools_count : Nat := 0
  deriving DecidableEq, Repr

/-- `MarketSnapshot::get_pool_reserves`. -/
def MarketSnapshot.get_pool_reserves (s : MarketSnapshot) (pid : PoolId) :
    Option (Nat × Nat) :=
  lookupA pid s.pool_reserves

/-- `MarketSnapshot::set_pool_reserves`. -/
def MarketSnapshot.set_pool_reserves (s : MarketSnapshot) (pid : PoolId)
    (reserve0 reserve1 : Nat) : MarketSnapshot :=
  { s with pool_reserves := hmInsert pid (reserve0, reserve1) s.pool_reserves }

/-- `DataAggregator::validate_snapshot` from `src/src/data_sync/aggregator.rs`:
fails on a zero block number or a zero timestamp.  The success-rate check
(`received / monitored < 0.5`) only emits a `warn!` log line in the source
and does not fail validation; the returned value ignores it. -/
def validate_snapshot (s : MarketSnapshot) (monitored_count : Nat) :
    Except String Unit :=
  if s.block_number = 0 then Except.error "Invalid block number: 0"
  else if s.timestamp = 0 then Except.error "Invalid timestamp: 0"
  else
    -- `let success_rate := received / monitored` is only compared for the
    -- warning log; validation succeeds regardless of it
    Except.ok ()

/-- C5 (amended): snapshot validation fails iff the block number is zero or
the timestamp is zero; a reserve-data success rate below the 0.5 threshold
only produces a warning and does not make validation fail. -/
theorem c5_validate_snapshot_iff (s : MarketSnapshot) (monitored_count : Nat) :
    exceptIsOk (validate_snapshot s monitored_count) = true ↔
      (s.block_number ≠ 0 ∧ s.timestamp ≠ 0) := by
  by_cases hb : s.block_number = 0
  · simp [validate_snapshot, hb, exceptIsOk]
  · by_cases ht : s.timestamp = 0
    · simp [validate_snapshot, hb, ht, exceptIsOk]
    · simp [validate_snapshot, hb, ht, exceptIsOk]

/-- A snapshot with valid block number and timestamp but zero reserve data. -/
def exLowRateSnapshot : MarketSnapshot :=
  { pool_reserves := [], timestamp := 5, block_number := 7
    enabled_pools := [], total_pools_count := 4 }

/-- C5 counterexample: for a snapshot with nonzero block number and
timestamp whose reserve-data fraction (0 of 4 monitored pools) is below the
0.5 threshold, validation still succeeds, contradicting the claimed
"fails if the fraction is below the threshold". -/
theorem c5_counterexample :
    validate_snapshot exLowRateSnapshot 4 = Except.ok () ∧
    2 * exLowRateSnapshot.pool_reserves.length < 4 :=
  ⟨rfl, by decide⟩

/-! ## ArbitrageOpportunity and the cross-block dedup tracker
(`src/src/logic/types.rs`, `src/examples/live_arbitrage_monitor.rs`) -/

/-- `ArbitrageOpportunity` from `src/src/logic/types.rs`.  The
`profit_margin_percent` (an `f64` used only for display) and the
`discovered_at` wall-clock instant are omitted: no claim uses them. -/
structure ArbitrageOpportunity where
  path : SwapPath
  optimal_input_amount : Nat
  gross_profit_mnt_wei : Nat
  gas_cost_mnt_wei : Nat
  net_profit_mnt_wei : Nat
  expected_output_amount : Nat
  deriving DecidableEq, Repr

/-- `ArbitrageOpportunity::new`: net profit is the gas-saturated difference. -/
def ArbitrageOpportunity.new (path : SwapPath) (optimal_input_amount : Nat)
    (expected_output_amount : Nat) (gross_profit_mnt_wei : Nat)
    (gas_cost_mnt_wei : Nat) : ArbitrageOpportunity :=
  { path := path
    optimal_input_amount := optimal_input_amount
    gross_profit_mnt_wei := gross_profit_mnt_wei
    gas_cost_mnt_wei := gas_cost_mnt_wei
    net_profit_mnt_wei :=
      if gas_cost_mnt_wei < gross_profit_mnt_wei then
        gross_profit_mnt_wei - gas_cost_mnt_wei
      else 0
    expected_output_amount := expected_output_amount }

/-- `ArbitrageOpportunityTracker` from
`src/examples/live_arbitrage_monitor.rs`: the bounded set of already
reported path hashes.  The `HashSet<SwapPathHash>` is modelled as an
insertion-ordered duplicate-free list; the eviction (`iter().take(n)`)
removes the first `max_cache_size / 2` elements of the iteration order. -/
structure ArbitrageOpportunityTracker where
  processed_opportunities : List SwapPathHash
  max_cache_size : Nat
  deriving DecidableEq, Repr

/-- `ArbitrageOpportunityTracker::is_new_opportunity`: evict half the set
when it is full, then report the opportunity as new iff inserting its path
hash changes the set. -/
def ArbitrageOpportunityTracker.is_new_opportunity
    (tr : ArbitrageOpportunityTracker) (opp : ArbitrageOpportunity) :
    Bool × ArbitrageOpportunityTracker :=
  let hash := opp.path.swap_path_hash
  let tr1 :=
    if tr.max_cache_size ≤ tr.processed_opportunities.length then
      { tr with processed_opportunities :=
          tr.processed_opportunities.drop (tr.max_cache_size / 2) }
    else tr
  if tr1.processed_opportunities.contains hash then (false, tr1)
  else (true, { tr1 with processed_opportunities :=
      tr1.processed_opportunities ++ [hash] })

/-- Run the tracker over a sequence of opportunities, collecting the
is-new verdicts. -/
def runTracker (tr : ArbitrageOpportunityTracker) :
    List ArbitrageOpportunity → List Bool × ArbitrageOpportunityTracker
  | [] => ([], tr)
  | o :: rest =>
    let step := tr.is_new_opportunity o
    let further := runTracker step.2 rest
    (step.1 :: further.1, further.2)

/-- A trace is eviction-free from a tracker state when the processed set
stays strictly below capacity at every step. -/
def evictionFree (tr : ArbitrageOpportunityTracker) :
    List ArbitrageOpportunity → Bool
  | [] => true
  | o :: rest =>
    decide (tr.processed_opportunities.length < tr.max_cache_size) &&
      evictionFree (tr.is_new_opportunity o).2 rest

/-- How often a path hash is surfaced (reported new) along a run. -/
def countSurfaced (h : SwapPathHash) :
    List ArbitrageOpportunity → List Bool → Nat
  | o :: os, b :: bs =>
    (if o.path.swap_path_hash = h ∧ b = true then 1 else 0) + countSurfaced h os bs
  | _, _ => 0

theorem contains_iff_memA {α : Type} [BEq α] [LawfulBEq α] (l : List α) (a : α) :
    l.contains a = true ↔ a ∈ l := by
  induction l with
  | nil => simp
  | cons x rest ih => simp

/-- Without eviction pressure, one tracker step is a plain membership test
plus insertion. -/
theorem is_new_opportunity_no_evict (tr : ArbitrageOpportunityTracker)
    (o : ArbitrageOpportunity)
    (hlt : tr.processed_opportunities.length < tr.max_cache_size) :
    tr.is_new_opportunity o =
      (if tr.processed_opportunities.contains o.path.swap_path_hash then (false, tr)
       else (true, { tr with processed_opportunities :=
          tr.processed_opportunities ++ [o.path.swap_path_hash] })) := by
  unfold ArbitrageOpportunityTracker.is_new_opportunity
  simp [Nat.not_le.mpr hlt]

/-- Hashes already in an eviction-free tracker are never surfaced again. -/
theorem tracker_surfaced_zero (h : SwapPathHash) :
    ∀ (opps : List ArbitrageOpportunity) (tr : ArbitrageOpportunityTracker),
      h ∈ tr.processed_opportunities → evictionFree tr opps = true →
      countSurfaced h opps (runTracker tr opps).1 = 0
  | [], tr, _, _ => rfl
  | o :: rest, tr, hmem, hev => by
    rw [evictionFree, Bool.and_eq_true] at hev
    have hlt := of_decide_eq_true hev.1
    have hstep := is_new_opportunity_no_evict tr o hlt
    by_cases hcm : o.path.swap_path_hash ∈ tr.processed_opportunities
    · have hstep2 : tr.is_new_opportunity o = (false, tr) := by
        rw [hstep]
        simp [hcm]
      have hev2 : evictionFree tr rest = true := by
        have hx := hev.2
        rw [hstep2] at hx
        exact hx
      simp only [runTracker, hstep2]
      simp only [countSurfaced]
      rw [tracker_surfaced_zero h rest tr hmem hev2]
      simp
    · have hcf : tr.processed_opportunities.contains o.path.swap_path_hash = false := by
        cases hx : tr.processed_opportunities.contains o.path.swap_path_hash with
        | false => rfl
        | true => exact absurd ((contains_iff_memA _ _).mp hx) hcm
      have hstep2 : tr.is_new_opportunity o =
          (true, { tr with processed_opportunities :=
              tr.processed_opportunities ++ [o.path.swap_path_hash] }) := by
        rw [hstep, hcf]
        simp
      have hne : o.path.swap_path_hash ≠ h := by
        intro hcon
        rw [hcon] at hcm
        exact hcm hmem
      have hev2 : evictionFree
          { tr with processed_opportunities :=
              tr.processed_opportunities ++ [o.path.swap_path_hash] } rest = true := by
        have hx := hev.2
        rw [hstep2] at hx
        exact hx
      simp only [runTracker, hstep2]
      simp only [countSurfaced]
      rw [tracker_surfaced_zero h rest _ (List.mem_append_left _ hmem) hev2]
      simp [hne]

/-- C6 (amended): as long as the tracker never reaches its cache capacity
during the observations (no eviction happens), every path hash is reported
as new at most once across the whole run; in particular the second
observation of a hash is not surfaced.  (When the set reaches
`max_cache_size` the tracker evicts half of its members, and an evicted
hash is reported as new again, so the unconditional claim fails.) -/
theorem c6_dedup_eviction_free (tr : ArbitrageOpportunityTracker)
    (opps : List ArbitrageOpportunity) (h : SwapPathHash)
    (hev : evictionFree tr opps = true) :
    countSurfaced h opps (runTracker tr opps).1 ≤ 1 := by
  induction opps generalizing tr with
  | nil => simp [countSurfaced]
  | cons o rest ih =>
    rw [evictionFree, Bool.and_eq_true] at hev
    have hlt := of_decide_eq_true hev.1
    have hstep := is_new_opportunity_no_evict tr o hlt
    by_cases hcm : o.path.swap_path_hash ∈ tr.processed_opportunities
    · have hstep2 : tr.is_new_opportunity o = (false, tr) := by
        rw [hstep]
        simp [hcm]
      have hev2 : evictionFree tr rest = true := by
        have hx := hev.2
        rw [hstep2] at hx
        exact hx
      simp only [runTracker, hstep2]
      simp only [countSurfaced]
      have := ih tr hev2
      simpa using this
    · have hcf : tr.processed_opportunities.contains o.path.swap_path_hash = false := by
        cases hx : tr.processed_opportunities.contains o.path.swap_path_hash with
        | false => rfl
        | true => exact absurd ((contains_iff_memA _ _).mp hx) hcm
      have hstep2 : tr.is_new_opportunity o =
          (true, { tr with processed_opportunities :=
              tr.processed_opportunities ++ [o.path.swap_path_hash] }) := by
        rw [hstep, hcf]
        simp
      have hev2 : evictionFree
          { tr with processed_opportunities :=
              tr.processed_opportunities ++ [o.path.swap_path_hash] } rest = true := by
        have hx := hev.2
        rw [hstep2] at hx
        exact hx
      simp only [runTracker, hstep2]
      simp only [countSurfaced]
      by_cases hh : o.path.swap_path_hash = h
      · have hzero := tracker_surfaced_zero h rest
          { tr with processed_opportunities :=
              tr.processed_opportunities ++ [o.path.swap_path_hash] }
          (by rw [hh]; exact List.mem_append_right _ (List.mem_singleton.mpr rfl)) hev2
        rw [hzero]
        simp [hh]
      · have := ih _ hev2
        simpa [hh] using this

/-- A second path with a different content hash. -/
def exPathB : SwapPath := SwapPath.new_first tokA tokB poolAB

/-- An opportunity over `exPath1`. -/
def oppA : ArbitrageOpportunity := ArbitrageOpportunity.new exPath1 0 0 0 0

/-- An opportunity over `exPathB`. -/
def oppB : ArbitrageOpportunity := ArbitrageOpportunity.new exPathB 0 0 0 0

/-- An empty tracker with capacity 2. -/
def exTracker2 : ArbitrageOpportunityTracker :=
  { processed_opportunities := [], max_cache_size := 2 }

/-- An empty tracker with capacity 10. -/
def exTracker10 : ArbitrageOpportunityTracker :=
  { processed_opportunities := [], max_cache_size := 10 }

/-- C6 counterexample: with capacity 2, the trace A, B, A triggers an
eviction that removes A's hash, so the hash of A is surfaced twice even
though it was observed (and surfaced) before. -/
theorem c6_counterexample :
    countSurfaced exPath1.swap_path_hash [oppA, oppB, oppA]
      (runTracker exTracker2 [oppA, oppB, oppA]).1 = 2 := by decide

/-- Witness for C6 on an eviction-free concrete run. -/
theorem c6_dedup_eviction_free_witness :
    evictionFree exTracker10 [oppA, oppB, oppA] = true ∧
    countSurfaced exPath1.swap_path_hash [oppA, oppB, oppA]
      (runTracker exTracker10 [oppA, oppB, oppA]).1 ≤ 1 :=
  ⟨by decide, c6_dedup_eviction_free exTracker10 [oppA, oppB, oppA]
    exPath1.swap_path_hash (by decide)⟩

/-! ## ProfitCalculator (`src/src/logic/profit_calculator.rs`) -/

/-- Wrapping bound of the 256-bit unsigned integers used for reserves and
amounts. -/
def U256LIMIT : Nat := 2 ^ 256

/-- Wrapping `U256` addition (ruint release builds wrap on overflow). -/
def wadd (a b : Nat) : Nat := (a + b) % U256LIMIT

/-- Wrapping `U256` subtraction. -/
def wsub (a b : Nat) : Nat := (U256LIMIT + a - b) % U256LIMIT

/-- Wrapping `U256` multiplication. -/
def wmul (a b : Nat) : Nat := (a * b) % U256LIMIT

/-- `ArbitrageConfig` from `src/src/logic/types.rs`.  The `f64` gas price in
gwei is stored here exactly, in thousandths of a gwei (the default 0.02 gwei
is 20). -/
structure ArbitrageConfig where
  min_profit_threshold_mnt_wei : Nat
  max_hops : Nat
  gas_price_milli_gwei : Nat
  gas_per_transaction : Nat
  max_precomputed_paths : Nat
  enable_parallel_calculation : Bool
  deriving DecidableEq, Repr

/-- `ArbitrageConfig::default`. -/
def ArbitrageConfig.default : ArbitrageConfig :=
  { min_profit_threshold_mnt_wei := 10000000000000000
    max_hops := 4
    gas_price_milli_gwei := 20
    gas_per_transaction := 700000000
    max_precomputed_paths := 10000
    enable_parallel_calculation := true }

/-- `ProfitCalculationResult` from `src/src/logic/types.rs`. -/
structure ProfitCalculationResult where
  path : SwapPath
  optimal_input_amount : Nat
  expected_output_amount : Nat
  gross_profit_mnt_wei : Nat
  gas_cost_mnt_wei : Nat
  net_profit_mnt_wei : Nat
  calculation_successful : Bool
  error_message : Option String
  deriving DecidableEq, Repr

/-- `ProfitCalculationResult::success`: net profit saturates at zero. -/
def ProfitCalculationResult.success (path : SwapPath) (optimal_input_amount : Nat)
    (expected_output_amount : Nat) (gross_profit_mnt_wei : Nat)
    (gas_cost_mnt_wei : Nat) : ProfitCalculationResult :=
  { path := path
    optimal_input_amount := optimal_input_amount
    expected_output_amount := expected_output_amount
    gross_profit_mnt_wei := gross_profit_mnt_wei
    gas_cost_mnt_wei := gas_cost_mnt_wei
    net_profit_mnt_wei :=
      if gas_cost_mnt_wei < gross_profit_mnt_wei then
        gross_profit_mnt_wei - gas_cost_mnt_wei
      else 0
    calculation_successful := true
    error_message := none }

/-- `ProfitCalculationResult::failure`. -/
def ProfitCalculationResult.failure (path : SwapPath) (msg : String) :
    ProfitCalculationResult :=
  { path := path
    optimal_input_amount := 0
    expected_output_amount := 0
    gross_profit_mnt_wei := 0
    gas_cost_mnt_wei := 0
    net_profit_mnt_wei := 0
    calculation_successful := false
    error_message := some msg }

/-- `ProfitCalculationResult::to_opportunity`. -/
def ProfitCalculationResult.to_opportunity (r : ProfitCalculationResult) :
    Option ArbitrageOpportunity :=
  if r.calculation_successful = true ∧ r.net_profit_mnt_wei ≠ 0 then
    some (ArbitrageOpportunity.new r.path r.optimal_input_amount
      r.expected_output_amount r.gross_profit_mnt_wei r.gas_cost_mnt_wei)
  else none

/-- `ProfitCalculator::simple_constant_product_formula`: the reserve sides
are resolved by comparing the token addresses; the fee is in basis points.
The `CalculationError` is modelled by `Unit`. -/
def simple_constant_product_formula (amount_in : Nat) (token_in token_out : Address)
    (reserve0 reserve1 : Nat) (fee : Nat) : Except Unit Nat :=
  if amount_in = 0 then Except.ok 0
  else
    let rr := if token_in < token_out then (reserve0, reserve1) else (reserve1, reserve0)
    if rr.1 = 0 ∨ rr.2 = 0 then Except.error ()
    else
      let fee_multiplier := wsub 10000 fee
      let amount_in_with_fee := wmul amount_in fee_multiplier / 10000
      let numerator := wmul amount_in_with_fee rr.2
      let denominator := wadd rr.1 amount_in_with_fee
      if denominator = 0 then Except.error ()
      else Except.ok (numerator / denominator)

/-- The hop loop of `ProfitCalculator::simulate_swap_path`: pools together
with the token window `tokens[i], tokens[i + 1]`.  The source's
`tokens.get(i).unwrap()` panic on a malformed path is modelled as an
error. -/
def simulateHops (snapshot : MarketSnapshot) :
    List Pool → List Token → Nat → Except Unit Nat
  | [], _, amount => Except.ok amount
  | pool :: pools, tokens, amount =>
    match snapshot.get_pool_reserves pool.get_pool_id with
    | none => Except.error ()
    | some rr =>
      match tokens with
      | token_in :: token_out :: rest =>
        match simple_constant_product_formula amount token_in.get_address
            token_out.get_address rr.1 rr.2 pool.get_fee with
        | Except.error e => Except.error e
        | Except.ok amount2 => simulateHops snapshot pools (token_out :: rest) amount2
      | _ => Except.error ()

/-- `ProfitCalculator::simulate_swap_path`. -/
def simulate_swap_path (path : SwapPath) (snapshot : MarketSnapshot)
    (amount : Nat) : Except Unit Nat :=
  simulateHops snapshot path.pools path.tokens amount

/-- `ProfitCalculator::calculate_profit_for_input`: errors when the output
does not exceed the input; the profit (an `f64` in the source, parsed from
the exact decimal rendering) is modelled by the exact natural number. -/
def calculate_profit_for_input (path : SwapPath) (snapshot : MarketSnapshot)
    (input_amount : Nat) : Except Unit (Nat × Nat) :=
  match simulate_swap_path path snapshot input_amount with
  | Except.error e => Except.error e
  | Except.ok output_amount =>
    if output_amount ≤ input_amount then Except.error ()
    else Except.ok (output_amount - input_amount, output_amount)

/-- The 0.001 ETH precision of the ternary search, in wei. -/
def ternaryPrecision : Nat := 1000000000000000

/-- The loop of `ProfitCalculator::ternary_search_optimal_input`.  The fuel
argument counts the remaining iterations (`MAX_ITERATIONS = 50`); state is
`(left, right, best_input, best_output, best_profit)` and the result is
`(best_input, best_output, best_profit)`. -/
def ternaryLoop (path : SwapPath) (snapshot : MarketSnapshot) :
    Nat → Nat → Nat → Nat → Nat → Nat → Nat × Nat × Nat
  | 0, _, _, bIn, bOut, bP => (bIn, bOut, bP)
  | fuel + 1, left, right, bIn, bOut, bP =>
    if wsub right left ≤ ternaryPrecision then (bIn, bOut, bP)
    else
      let one_third := wsub right left / 3
      let mid1 := wadd left one_third
      let mid2 := wsub right one_third
      match calculate_profit_for_input path snapshot mid1,
          calculate_profit_for_input path snapshot mid2 with
      | Except.ok (p1, o1), Except.ok (p2, o2) =>
        if p2 < p1 then
          if bP < p1 then ternaryLoop path snapshot fuel left mid2 mid1 o1 p1
          else ternaryLoop path snapshot fuel left mid2 bIn bOut bP
        else
          if bP < p2 then ternaryLoop path snapshot fuel mid1 right mid2 o2 p2
          else ternaryLoop path snapshot fuel mid1 right bIn bOut bP
      | Except.ok (p1, o1), Except.error _ =>
        if bP < p1 then ternaryLoop path snapshot fuel left mid2 mid1 o1 p1
        else ternaryLoop path snapshot fuel left mid2 bIn bOut bP
      | Except.error _, Except.ok (p2, o2) =>
        if bP < p2 then ternaryLoop path snapshot fuel mid1 right mid2 o2 p2
        else ternaryLoop path snapshot fuel mid1 right bIn bOut bP
      | Except.error _, Except.error _ =>
        let left2 := wadd left right / 2
        let right2 := wadd left2 ternaryPrecision
        ternaryLoop path snapshot fuel left2 right2 bIn bOut bP

/-- `ProfitCalculator::try_fixed_input_amounts`: probe the fixed grid
{0.1, 0.5, 1, 5} ETH; in the source this always returns `Ok`, so the model
returns the pair directly. -/
def try_fixed_input_amounts (path : SwapPath) (snapshot : MarketSnapshot) :
    Nat × Nat :=
  let test_amounts : List Nat :=
    [100000000000000000, 500000000000000000, 1000000000000000000, 5000000000000000000]
  let final := test_amounts.foldl
    (fun acc amount =>
      match calculate_profit_for_input path snapshot amount with
      | Except.ok (p, o) => if acc.2.2 < p then (amount, o, p) else acc
      | Except.error _ => acc)
    (100000000000000000, 0, 0)
  (final.1, final.2.1)

/-- `ProfitCalculator::ternary_search_optimal_input`: run the loop from the
given bounds; when the best profit found is zero fall back to the fixed
grid.  Both return sites of the source construct `Ok`, so the model returns
the pair directly. -/
def ternary_search_optimal_input (path : SwapPath) (snapshot : MarketSnapshot)
    (left right : Nat) : Nat × Nat :=
  let res := ternaryLoop path snapshot 50 left right left 0 0
  if 0 < res.2.2 then (res.1, res.2.1)
  else try_fixed_input_amounts path snapshot

/-- `ProfitCalculator::find_optimal_input_amount`: search over
[0.01 ETH, 100 ETH] in wei. -/
def find_optimal_input_amount (path : SwapPath) (snapshot : MarketSnapshot) :
    Nat × Nat :=
  ternary_search_optimal_input path snapshot
    10000000000000000 100000000000000000000

/-- `ProfitCalculator::calculate_gas_cost_mnt_wei`: a constant per
transaction, `gas_per_transaction * gas_price_gwei * 10^9` wei.  The source
computes this through `f64`; with the gas price in thousandths of a gwei the
exact value is `gas * milli_gwei * 10^6` (the defaults give the
14_000_000_000_000_000 wei of the source's unit test). -/
def calculate_gas_cost_mnt_wei (config : ArbitrageConfig) : Nat :=
  config.gas_per_transaction * config.gas_price_milli_gwei * 1000000

/-- `ProfitCalculator::calculate_path_profit`: fail when any pool of the
path has no reserves in the snapshot, otherwise run the optimal-input search
and package a success result.  (The source matches on the search's `Result`,
but both return sites of the search construct `Ok`, so its `Err` arm is
dead.) -/
def calculate_path_profit (config : ArbitrageConfig) (path : SwapPath)
    (snapshot : MarketSnapshot) : ProfitCalculationResult :=
  match path.pools.find?
      (fun pool => (snapshot.get_pool_reserves pool.get_pool_id).isNone) with
  | some _ => ProfitCalculationResult.failure path "Missing reserve data for pool"
  | none =>
    let res := find_optimal_input_amount path snapshot
    let gas_cost := calculate_gas_cost_mnt_wei config
    let gross := if res.1 < res.2 then res.2 - res.1 else 0
    ProfitCalculationResult.success path res.1 res.2 gross gas_cost

/-- `ProfitCalculator::calculate_profits_sequential`. -/
def calculate_profits_sequential (config : ArbitrageConfig)
    (paths : List SwapPath) (snapshot : MarketSnapshot) :
    List ProfitCalculationResult :=
  paths.map (fun path => calculate_path_profit config path snapshot)

/-- `ProfitCalculator::calculate_profits_parallel`: fall back to the
sequential pass when parallel calculation is disabled; otherwise map over
the paths with rayon's `par_iter().map().collect()`, which preserves the
input order — the data-parallel map is therefore modelled as `List.map`. -/
def calculate_profits_parallel (config : ArbitrageConfig)
    (paths : List SwapPath) (snapshot : MarketSnapshot) :
    List ProfitCalculationResult :=
  if config.enable_parallel_calculation = false then
    calculate_profits_sequential config paths snapshot
  else
    paths.map (fun path => calculate_path_profit config path snapshot)

/-! ## ArbitrageEngine (`src/src/logic/arbitrage_engine.rs`) -/

/-- `ArbitrageEngine`: configuration, the pre-computed path set, and the
initialization flag. -/
structure ArbitrageEngine where
  config : ArbitrageConfig
  precomputed_paths : List SwapPath
  is_initialized : Bool
  deriving DecidableEq, Repr

/-- `ArbitrageEngine::new`. -/
def ArbitrageEngine.new (config : ArbitrageConfig) : ArbitrageEngine :=
  { config := config, precomputed_paths := [], is_initialized := false }

/-- `ArbitrageEngine::process_market_snapshot`: evaluate all paths, filter
by `calculation_successful` and the strict net-profit threshold, convert to
opportunities.  (The engine source names the threshold field with a `_usd`
suffix while `types.rs` uses wei; the semantics — net profit strictly above
the configured minimum — is what is modelled.) -/
def ArbitrageEngine.process_market_snapshot (e : ArbitrageEngine)
    (snapshot : MarketSnapshot) : Except String (List ArbitrageOpportunity) :=
  if e.is_initialized = false then Except.error "engine not initialized"
  else Except.ok
    ((calculate_profits_parallel e.config e.precomputed_paths snapshot).filterMap
      (fun result =>
        if result.calculation_successful = true ∧
            e.config.min_profit_threshold_mnt_wei < result.net_profit_mnt_wei then
          result.to_opportunity
        else none))

-- The gross/net shape of every profit-calculation result.

theorem calculate_path_profit_shape (config : ArbitrageConfig) (path : SwapPath)
    (snapshot : MarketSnapshot) :
    (calculate_path_profit config path snapshot).net_profit_mnt_wei =
      (if (calculate_path_profit config path snapshot).gas_cost_mnt_wei <
          (calculate_path_profit config path snapshot).gross_profit_mnt_wei then
        (calculate_path_profit config path snapshot).gross_profit_mnt_wei -
          (calculate_path_profit config path snapshot).gas_cost_mnt_wei
       else 0) ∧
    (calculate_path_profit config path snapshot).gross_profit_mnt_wei =
      (if (calculate_path_profit config path snapshot).optimal_input_amount <
          (calculate_path_profit config path snapshot).expected_output_amount then
        (calculate_path_profit config path snapshot).expected_output_amount -
          (calculate_path_profit config path snapshot).optimal_input_amount
       else 0) := by
  cases hfind : path.pools.find?
      (fun pool => (snapshot.get_pool_reserves pool.get_pool_id).isNone) with
  | none =>
    constructor
    · simp [calculate_path_profit, hfind, ProfitCalculationResult.success]
    · simp [calculate_path_profit, hfind, ProfitCalculationResult.success]
  | some pool =>
    constructor
    · simp [calculate_path_profit, hfind, ProfitCalculationResult.failure]
    · simp [calculate_path_profit, hfind, ProfitCalculationResult.failure]

/-- C9: per-path profit calculation returns a failure result iff some pool
of the path has no reserves in the snapshot; whenever every pool has
reserves the result is marked successful, and whenever the reported expected
output does not exceed the optimal input the gross and net profits are zero.
The hypothesis `hwf` restricts the statement to well-formed paths (one more
token than pools), because on malformed paths the source would panic in
`tokens.get(i).unwrap()` while the model reports an in-band error. -/
theorem c9_failure_iff_missing_reserves (config : ArbitrageConfig)
    (path : SwapPath) (snapshot : MarketSnapshot)
    (hwf : path.tokens.length = path.pools.length + 1) :
    ((calculate_path_profit config path snapshot).calculation_successful = false ↔
      ∃ pool ∈ path.pools, snapshot.get_pool_reserves pool.get_pool_id = none) ∧
    ((calculate_path_profit config path snapshot).expected_output_amount ≤
        (calculate_path_profit config path snapshot).optimal_input_amount →
      (calculate_path_profit config path snapshot).gross_profit_mnt_wei = 0 ∧
      (calculate_path_profit config path snapshot).net_profit_mnt_wei = 0) := by
  cases hfind : path.pools.find?
      (fun pool => (snapshot.get_pool_reserves pool.get_pool_id).isNone) with
  | some pool =>
    have hmem := List.mem_of_find?_eq_some hfind
    have hp := List.find?_some hfind
    simp only [Option.isNone_iff_eq_none] at hp
    constructor
    · constructor
      · intro _
        exact ⟨pool, hmem, hp⟩
      · intro _
        simp [calculate_path_profit, hfind, ProfitCalculationResult.failure]
    · intro _
      constructor
      · simp [calculate_path_profit, hfind, ProfitCalculationResult.failure]
      · simp [calculate_path_profit, hfind, ProfitCalculationResult.failure]
  | none =>
    have hall := List.find?_eq_none.mp hfind
    constructor
    · constructor
      · intro hcon
        exfalso
        have : (calculate_path_profit config path snapshot).calculation_successful
            = true := by
          simp [calculate_path_profit, hfind, ProfitCalculationResult.success]
        rw [this] at hcon
        simp at hcon
      · intro hex
        exfalso
        obtain ⟨pool, hmem, hnone⟩ := hex
        exact absurd (by simp [hnone] : (snapshot.get_pool_reserves
          pool.get_pool_id).isNone = true) (hall pool hmem)
    · intro hle
      have hshape := calculate_path_profit_shape config path snapshot
      have hgross : (calculate_path_profit config path snapshot).gross_profit_mnt_wei
          = 0 := by
        rw [hshape.2, if_neg (Nat.not_lt.mpr hle)]
      refine ⟨hgross, ?_⟩
      rw [hshape.1, hgross]
      simp

/-- A snapshot with no reserve data at all. -/
def exEmptySnapshot : MarketSnapshot := {}

/-- Witness for C9 at a concrete well-formed 1-hop path against an empty
snapshot. -/
theorem c9_failure_iff_missing_reserves_witness :
    exPath1.tokens.length = exPath1.pools.length + 1 ∧
    (calculate_path_profit ArbitrageConfig.default exPath1
      exEmptySnapshot).calculation_successful = false :=
  ⟨by decide,
    (c9_failure_iff_missing_reserves ArbitrageConfig.default exPath1
      exEmptySnapshot (by decide)).1.mpr ⟨poolWA, by decide, rfl⟩⟩

/-- C10: profit evaluation with parallel calculation enabled returns exactly
the same result vector (same length, order and fields) as the sequential
fallback with parallel calculation disabled, because rayon's ordered
parallel map and the sequential map apply the same pure per-path
calculation, which never reads the `enable_parallel_calculation` flag. -/
theorem c10_parallel_eq_sequential (config : ArbitrageConfig)
    (paths : List SwapPath) (snapshot : MarketSnapshot) :
    calculate_profits_parallel
      { config with enable_parallel_calculation := true } paths snapshot =
    calculate_profits_sequential
      { config with enable_parallel_calculation := false } paths snapshot := by
  cases config
  rfl

/-- C3: every opportunity surfaced by the engine (a successful
profit-calculation result converted to an `ArbitrageOpportunity` and passing
the strict net-profit threshold filter) satisfies
`net_profit + gas_cost ≤ gross_profit`, and `expected_output ≥
optimal_input` or `net_profit = 0`. -/
theorem c3_opportunity_monotonicity (e : ArbitrageEngine)
    (snapshot : MarketSnapshot) (opps : List ArbitrageOpportunity)
    (opp : ArbitrageOpportunity)
    (hres : e.process_market_snapshot snapshot = Except.ok opps)
    (hmem : opp ∈ opps) :
    opp.net_profit_mnt_wei + opp.gas_cost_mnt_wei ≤ opp.gross_profit_mnt_wei ∧
    (opp.optimal_input_amount ≤ opp.expected_output_amount ∨
      opp.net_profit_mnt_wei = 0) := by
  unfold ArbitrageEngine.process_market_snapshot at hres
  by_cases hinit : e.is_initialized = false
  · simp [hinit] at hres
  · rw [if_neg hinit] at hres
    injection hres with hres2
    subst hres2
    rw [List.mem_filterMap] at hmem
    obtain ⟨r, hrmem, hsome⟩ := hmem
    by_cases hcond : r.calculation_successful = true ∧
        e.config.min_profit_threshold_mnt_wei < r.net_profit_mnt_wei
    case neg => rw [if_neg hcond] at hsome; simp at hsome
    rw [if_pos hcond] at hsome
    unfold ProfitCalculationResult.to_opportunity at hsome
    by_cases hcond2 : r.calculation_successful = true ∧ r.net_profit_mnt_wei ≠ 0
    case neg => rw [if_neg hcond2] at hsome; simp at hsome
    rw [if_pos hcond2] at hsome
    injection hsome with hopp
    subst hopp
    have hr : ∃ path, r = calculate_path_profit e.config path snapshot := by
      unfold calculate_profits_parallel calculate_profits_sequential at hrmem
      by_cases hen : e.config.enable_parallel_calculation = false
      · rw [if_pos hen] at hrmem
        obtain ⟨path, _, hpr⟩ := List.mem_map.mp hrmem
        exact ⟨path, hpr.symm⟩
      · rw [if_neg hen] at hrmem
        obtain ⟨path, _, hpr⟩ := List.mem_map.mp hrmem
        exact ⟨path, hpr.symm⟩
    obtain ⟨path, hreq⟩ := hr
    have hshape := calculate_path_profit_shape e.config path snapshot
    rw [← hreq] at hshape
    have hnet0 := hcond2.2
    have hgas : r.gas_cost_mnt_wei < r.gross_profit_mnt_wei := by
      by_contra hge
      rw [hshape.1, if_neg hge] at hnet0
      exact hnet0 rfl
    have hgrosspos : 0 < r.gross_profit_mnt_wei :=
      Nat.lt_of_le_of_lt (Nat.zero_le _) hgas
    have hopt : r.optimal_input_amount < r.expected_output_amount := by
      by_contra hge
      rw [hshape.2, if_neg hge] at hgrosspos
      exact Nat.lt_irrefl 0 hgrosspos
    constructor
    · simp only [ArbitrageOpportunity.new]
      rw [if_pos hgas, Nat.sub_add_cancel (Nat.le_of_lt hgas)]
    · left
      simp only [ArbitrageOpportunity.new]
      exact Nat.le_of_lt hopt

/-- A configuration with zero gas cost and zero threshold, so any positive
gross profit is surfaced. -/
def exProfitConfig : ArbitrageConfig :=
  { min_profit_threshold_mnt_wei := 0
    max_hops := 4
    gas_price_milli_gwei := 0
    gas_per_transaction := 0
    max_precomputed_paths := 10000
    enable_parallel_calculation := true }

/-- An engine holding the 1-hop WMNT -> tokA path. -/
def exProfitEngine : ArbitrageEngine :=
  { config := exProfitConfig, precomputed_paths := [exPath1], is_initialized := true }

/-- A snapshot making the 1-hop path massively profitable (1 wei of WMNT and
10^30 wei of tokA in the pool). -/
def exProfitSnapshot : MarketSnapshot :=
  { pool_reserves := [(PoolId.address 10, (1, 1000000000000000000000000000000))]
    timestamp := 1, block_number := 1
    enabled_pools := [PoolId.address 10], total_pools_count := 1 }

/-- The opportunities the engine surfaces in the witness scenario. -/
def exProfitOpps : List ArbitrageOpportunity :=
  match exProfitEngine.process_market_snapshot exProfitSnapshot with
  | Except.ok l => l
  | Except.error _ => []

/-- Witness for C3 at a concretely surfaced opportunity. -/
theorem c3_opportunity_monotonicity_witness :
    exProfitEngine.process_market_snapshot exProfitSnapshot =
      Except.ok exProfitOpps ∧
    ∃ opp ∈ exProfitOpps,
      opp.net_profit_mnt_wei + opp.gas_cost_mnt_wei ≤ opp.gross_profit_mnt_wei ∧
      (opp.optimal_input_amount ≤ opp.expected_output_amount ∨
        opp.net_profit_mnt_wei = 0) := by
  have hres : exProfitEngine.process_market_snapshot exProfitSnapshot =
      Except.ok exProfitOpps := rfl
  have hlen : 0 < exProfitOpps.length := by decide
  refine ⟨hres, exProfitOpps.get ⟨0, hlen⟩, List.get_mem _ _ _, ?_⟩
  exact c3_opportunity_monotonicity exProfitEngine exProfitSnapshot exProfitOpps
    _ hres (List.get_mem _ _ _)

/-! ## Pathfinder (`src/src/logic/pathfinder.rs`) -/

/-- The path signature of `Pathfinder::generate_path_signature`: the token
address sequence and the pool id sequence (the source renders them into a
string; the rendering is injective on these components). -/
def pathSignature (p : SwapPath) : List Address × List PoolId :=
  (p.tokens.map Token.get_address, p.pools.map Pool.get_pool_id)

/-- The visited-signature set plus collected-cycles state of the DFS. -/
abbrev DfsState := List SwapPath × List (List Address × List PoolId)

/-- `HashMap::values` of an edge's pool map. -/
def valuesOf (m : List (PoolId × PoolEdge)) : List PoolEdge := m.map Prod.snd

/-- The closing loop of `Pathfinder::dfs_find_cycles` (the
`neighbor_node == target_node && current_hops >= 2` branch): for every
active, unused pool leading back to WMNT, emit the closed cycle and record
its signature in the visited set. -/
def dfsClose (path : SwapPath) (ntok : Token) :
    List PoolEdge → DfsState → DfsState
  | [], st => st
  | pe :: rest, st =>
    if pe.is_active = false then dfsClose path ntok rest st
    else if path.contains_pool pe.inner = true then dfsClose path ntok rest st
    else
      match path.push_swap_hop ntok pe.inner with
      | Except.error _ => dfsClose path ntok rest st
      | Except.ok final_path =>
        dfsClose path ntok rest
          (st.1 ++ [final_path], pathSignature final_path :: st.2)

/-- The pool loop of `dfs_find_cycles` exploring one neighbor: skip inactive
pools, pool reuse and token revisits (except the target), then push the hop
and continue through `next` (the recursive DFS call one hop deeper). -/
def dfsExpandG (g : TokenGraph)
    (next : SwapPath → Nat → List (List Address × List PoolId) → DfsState)
    (path : SwapPath) (neighborNode : Nat) (ntok : Token) (targetNode : Nat) :
    List PoolEdge → DfsState → DfsState
  | [], st => st
  | pe :: rest, st =>
    if pe.is_active = false then
      dfsExpandG g next path neighborNode ntok targetNode rest st
    else if path.contains_pool pe.inner = true then
      dfsExpandG g next path neighborNode ntok targetNode rest st
    else if neighborNode ≠ targetNode ∧
        path.tokens.any (fun tok => tok.get_address == ntok.get_address) = true then
      dfsExpandG g next path neighborNode ntok targetNode rest st
    else
      match path.push_swap_hop ntok pe.inner with
      | Except.error _ =>
        dfsExpandG g next path neighborNode ntok targetNode rest st
      | Except.ok new_path =>
        let deeper := next new_path neighborNode st.2
        dfsExpandG g next path neighborNode ntok targetNode rest
          (st.1 ++ deeper.1, deeper.2)

/-- The edge loop of `dfs_find_cycles` over the neighbors of the current
node.  A dangling neighbor index (`node_weight(...).unwrap()` would panic in
the source) is skipped. -/
def dfsEdgesG (g : TokenGraph)
    (next : SwapPath → Nat → List (List Address × List PoolId) → DfsState)
    (path : SwapPath) (targetNode hops : Nat) :
    List (Nat × List (PoolId × PoolEdge)) → DfsState → DfsState
  | [], st => st
  | (neighborNode, pmap) :: rest, st =>
    match g.nodeToken neighborNode with
    | none => dfsEdgesG g next path targetNode hops rest st
    | some ntok =>
      if neighborNode = targetNode ∧ 2 ≤ hops then
        dfsEdgesG g next path targetNode hops rest
          (dfsClose path ntok (valuesOf pmap) st)
      else if ntok.is_wrapped = true ∧ neighborNode ≠ targetNode then
        dfsEdgesG g next path targetNode hops rest st
      else
        dfsEdgesG g next path targetNode hops rest
          (dfsExpandG g next path neighborNode ntok targetNode (valuesOf pmap) st)

/-- `Pathfinder::dfs_find_cycles`.  The extra `fuel` argument bounds the
recursion depth structurally; the wrapper passes `maxHops`, which the
`maxHops ≤ hops` entry check makes non-binding (each recursion level
increments `hops`, so the hop check always fires before the fuel runs
out). -/
def dfsFindCycles (g : TokenGraph) (maxHops : Nat) (fuel : Nat) (path : SwapPath)
    (currentNode targetNode hops : Nat)
    (visited : List (List Address × List PoolId)) : DfsState :=
  if pathSignature path ∈ visited then ([], visited)
  else if maxHops ≤ hops then ([], visited)
  else
    match fuel with
    | 0 => ([], visited)
    | fuel' + 1 =>
      dfsEdgesG g
        (fun new_path neighborNode vis =>
          dfsFindCycles g maxHops fuel' new_path neighborNode targetNode
            (hops + 1) vis)
        path targetNode hops (g.edgesOf currentNode) ([], visited)

/-- The inner pool loop of `Pathfinder::precompute_arbitrage_paths`: for
every active pool from WMNT to the neighbor, build the 1-hop prefix, run the
DFS, extend the accumulator, and stop when the path limit is reached. -/
def precomputePools (g : TokenGraph) (maxHops limit target : Nat)
    (wtok ntok : Token) (neighborNode : Nat) :
    List PoolEdge → List SwapPath → List (List Address × List PoolId) →
    List SwapPath × List (List Address × List PoolId)
  | [], acc, visited => (acc, visited)
  | pe :: rest, acc, visited =>
    if pe.is_active = false then
      precomputePools g maxHops limit target wtok ntok neighborNode rest acc visited
    else
      let initial := SwapPath.new_first wtok ntok pe.inner
      let res := dfsFindCycles g maxHops maxHops initial neighborNode target 1 visited
      let acc2 := acc ++ res.1
      if limit ≤ acc2.length then (acc2, res.2)
      else precomputePools g maxHops limit target wtok ntok neighborNode rest acc2 res.2

/-- The outer edge loop of `Pathfinder::precompute_arbitrage_paths` over the
neighbors of the WMNT node: skip wrapped neighbors, run the pool loop, and
break once the path limit is reached. -/
def precomputeEdges (g : TokenGraph) (maxHops limit target : Nat) (wtok : Token) :
    List (Nat × List (PoolId × PoolEdge)) → List SwapPath →
    List (List Address × List PoolId) → List SwapPath
  | [], acc, _ => acc
  | (neighborNode, pmap) :: rest, acc, visited =>
    match g.nodeToken neighborNode with
    | none => precomputeEdges g maxHops limit target wtok rest acc visited
    | some ntok =>
      if ntok.is_wrapped = true then
        precomputeEdges g maxHops limit target wtok rest acc visited
      else
        let res := precomputePools g maxHops limit target wtok ntok neighborNode
          (valuesOf pmap) acc visited
        if limit ≤ res.1.length then res.1
        else precomputeEdges g maxHops limit target wtok rest res.1 res.2

/-- `Pathfinder::precompute_arbitrage_paths`: locate the WMNT node and token
and enumerate the cycles from it. -/
def precompute_arbitrage_paths (g : TokenGraph) (maxHops limit : Nat) :
    Except String (List SwapPath) :=
  match lookupA WMNT g.token_index with
  | none => Except.error "WMNT token not found in graph"
  | some wmnt_node_index =>
    match lookupA WMNT g.tokens with
    | none => Except.error "WMNT token not found in tokens map"
    | some wmnt_token =>
      Except.ok (precomputeEdges g maxHops limit wmnt_node_index wmnt_token
        (g.edgesOf wmnt_node_index) [] [])

/-- `ArbitrageEngine::initialize`: a no-op returning `Ok` if already
initialized (the source logs a warning and returns `Ok(())`); otherwise run
the pathfinder, fail when no path is found, and store the path set. -/
def ArbitrageEngine.initialize (e : ArbitrageEngine) (token_graph : TokenGraph) :
    Except String ArbitrageEngine :=
  if e.is_initialized = true then Except.ok e
  else
    match precompute_arbitrage_paths token_graph e.config.max_hops
        e.config.max_precomputed_paths with
    | Except.error msg => Except.error msg
    | Except.ok paths =>
      if paths.isEmpty then Except.error "no arbitrage paths found"
      else Except.ok { e with precomputed_paths := paths, is_initialized := true }

/-- C8 (amended): calling `initialize` on an engine that has already been
initialized is a no-op: it returns `Ok` (the source logs "skip duplicate
initialization" and returns `Ok(())`), not an error, and leaves the engine —
in particular its pre-computed path set — unchanged. -/
theorem c8_duplicate_initialize_noop (e : ArbitrageEngine) (g : TokenGraph)
    (h : e.is_initialized = true) :
    e.initialize g = Except.ok e := by
  unfold ArbitrageEngine.initialize
  rw [if_pos h]

/-- A triangle graph: WMNT, tokA, tokB with pools WMNT-A, A-B, B-WMNT. -/
def exGraphT : TokenGraph :=
  let g0 := (((TokenGraph.new.add_or_get_token_idx_by_token
    tokW).1.add_or_get_token_idx_by_token tokA).1.add_or_get_token_idx_by_token
    tokB).1
  match g0.add_pool poolWA with
  | Except.ok g1 =>
    match g1.add_pool poolAB with
    | Except.ok g2 =>
      match g2.add_pool poolBW with
      | Except.ok g3 => g3
      | Except.error _ => g2
    | Except.error _ => g1
  | Except.error _ => g0

/-- A fresh engine with the default configuration. -/
def exEngine0 : ArbitrageEngine := ArbitrageEngine.new ArbitrageConfig.default

/-- The engine after a successful first initialization on the triangle. -/
def exEngine1 : ArbitrageEngine :=
  match exEngine0.initialize exGraphT with
  | Except.ok e => e
  | Except.error _ => exEngine0

/-- C8 counterexample: initializing an already-initialized engine does not
return an error — it returns `Ok` with the engine (and its non-empty
pre-computed path set) unchanged. -/
theorem c8_counterexample :
    exEngine1.is_initialized = true ∧
    exceptIsOk ( exEngine1.initialize exGraphT) = true ∧
    exEngine1.precomputed_paths ≠ [] :=
  ⟨rfl, rfl, by decide⟩

/-- Witness for C8 at the concretely initialized engine. -/
theorem c8_duplicate_initialize_noop_witness :
    exEngine1.initialize exGraphT = Except.ok exEngine1 :=
  c8_duplicate_initialize_noop exEngine1 exGraphT rfl

/-! ## Soundness of the pathfinder cycle enumeration (C1) -/

